import Mathlib

/-!
Verification of the halo2-examples gadgets.

Each circuit of the repository is shallowly embedded: the symbolic gate
expressions are transcribed from the `configure` functions, the witness
generation from the `synthesize`/`assign` functions, and a boolean checker
evaluates every enabled gate, copy constraint, instance binding and lookup
on the synthesized witness, mirroring the mock-prover checking pass.
The field is an arbitrary commutative ring or field `F`; concrete witnesses
use `ZMod 257`.
-/

set_option maxHeartbeats 1000000

/-- Symbolic constraint expression over constants, advice-cell queries
(column index, row rotation) and selector queries, with the ring operations,
mirroring the expression algebra the gates are built from. -/
inductive Expression (F : Type) where
  | constant : F → Expression F
  | advice : Nat → Int → Expression F
  | selector : Nat → Expression F
  | neg : Expression F → Expression F
  | add : Expression F → Expression F → Expression F
  | sub : Expression F → Expression F → Expression F
  | mul : Expression F → Expression F → Expression F
deriving DecidableEq

/-- Concrete evaluation of an expression at one row: `sv` gives each
selector's value there, `av` gives the advice value at (column, rotation). -/
def Expression.eval {F : Type} [CommRing F] (sv : Nat → F) (av : Nat → Int → F) :
    Expression F → F
  | .constant c => c
  | .advice col rot => av col rot
  | .selector s => sv s
  | .neg e => - Expression.eval sv av e
  | .add e1 e2 => Expression.eval sv av e1 + Expression.eval sv av e2
  | .sub e1 e2 => Expression.eval sv av e1 - Expression.eval sv av e2
  | .mul e1 e2 => Expression.eval sv av e1 * Expression.eval sv av e2

/-! ## Fibonacci circuit (fibonacci1.rs)

Columns: `col_a = 0`, `col_b = 1`, `col_c = 2`; one selector (index 0).
The gate "add" from `FibonacciChip::configure` is `s * (a + b - c)`. -/

/-- The "add" gate of `FibonacciChip::configure`: `s * (a + b - c)`,
all three advice queries at the current row. -/
def fibGate {F : Type} : Expression F :=
  .mul (.selector 0) (.sub (.add (.advice 0 0) (.advice 1 0)) (.advice 2 0))

/-- Advice valuation of one Fibonacci region row holding `(a, b, c)`. -/
def fibRowAdv {F : Type} (r : F × F × F) : Nat → Int → F := fun col _ =>
  if col = 0 then r.1 else if col = 1 then r.2.1 else r.2.2

/-- The loop body of `MyCircuit::synthesize`: each iteration calls
`assign_row`, which copies `prev_b` into `col_a`, `prev_c` into `col_b`,
assigns `c = prev_b + prev_c`, and the loop continues with
`(prev_b, prev_c) := (prev_c, c)`.  Returns the list of assigned rows
(one per "next row" region) and the final `c` value. -/
def fibLoop {F : Type} [CommRing F] : Nat → F × F → List (F × F × F) × F
  | 0, st => ([], st.2)
  | n + 1, (pb, pc) =>
      let c := pb + pc
      let rest := fibLoop n (pc, c)
      ((pb, pc, c) :: rest.1, rest.2)

/-- `MyCircuit::synthesize`: `assign_first_row` places `(a, b, a + b)` at the
first region (the two instance values copied into `col_a`, `col_b`), then the
loop `for _i in 3..10` runs `assign_row` seven times.  Returns all assigned
region rows together with the final `c` value, which `expose_public` binds to
instance row 2. -/
def fibSynth {F : Type} [CommRing F] (a b : F) : List (F × F × F) × F :=
  let rest := fibLoop 7 (b, a + b)
  ((a, b, a + b) :: rest.1, rest.2)

/-- The reference linear recurrence `f(0) = a`, `f(1) = b`,
`f(i) = f(i-2) + f(i-1)`. -/
def fibSeq {F : Type} [CommRing F] (a b : F) : Nat → F
  | 0 => a
  | 1 => b
  | n + 2 => fibSeq a b n + fibSeq a b (n + 1)

/-- Gate check: the "add" gate must vanish at every region row (the selector
is enabled at offset 0 of every region). -/
def fibGatesOk {F : Type} [CommRing F] [DecidableEq F] (a b : F) : Bool :=
  (fibSynth a b).1.all fun r => decide (fibGate.eval (fun _ => 1) (fibRowAdv r) = 0)

/-- Copy-constraint check for the chained rows: `copy_advice` forces each
region's `col_a` to equal the previous region's `col_b` and its `col_b` to
equal the previous region's `col_c`. -/
def fibChainOk {F : Type} [DecidableEq F] : List (F × F × F) → Bool
  | r1 :: r2 :: rest =>
      decide (r2.1 = r1.2.1) && decide (r2.2.1 = r1.2.2) && fibChainOk (r2 :: rest)
  | _ => true

/-- Instance-copy check for the first region: `assign_advice_from_instance`
copy-constrains `col_a` row 0 to instance row 0 and `col_b` row 0 to
instance row 1. -/
def fibInstOk {F : Type} [CommRing F] [DecidableEq F] (a b : F) : Bool :=
  match (fibSynth a b).1 with
  | [] => false
  | r0 :: _ => decide (r0.1 = a) && decide (r0.2.1 = b)

/-- Terminal binding check: `expose_public` (`constrain_instance`) forces the
final `c` cell to equal instance row 2, the public output `out`. -/
def fibBindingOk {F : Type} [CommRing F] [DecidableEq F] (a b out : F) : Bool :=
  decide ((fibSynth a b).2 = out)

/-- Full checker for the Fibonacci circuit on the witness synthesized from
public inputs `(a, b, out)`: every enabled gate, every copy constraint and
the instance bindings must hold. -/
def fibCheck {F : Type} [CommRing F] [DecidableEq F] (a b out : F) : Bool :=
  fibGatesOk a b && fibChainOk (fibSynth a b).1 && fibInstOk a b && fibBindingOk a b out

/-- Every row produced by the synthesis loop satisfies `c = a + b`. -/
lemma fibLoop_rows {F : Type} [CommRing F] (n : Nat) :
    ∀ (pb pc : F), ∀ r ∈ (fibLoop n (pb, pc)).1, r.2.2 = r.1 + r.2.1 := by
  induction n with
  | zero => intro pb pc r hr; simp [fibLoop] at hr
  | succ n ih =>
      intro pb pc r hr
      simp only [fibLoop, List.mem_cons] at hr
      rcases hr with h | h
      · subst h; rfl
      · exact ih pc (pb + pc) r h

/-- The synthesis loop produces rows chained by the copy constraints. -/
lemma fibChainOk_loop {F : Type} [CommRing F] [DecidableEq F] (n : Nat) :
    ∀ (x pb pc : F), fibChainOk ((x, pb, pc) :: (fibLoop n (pb, pc)).1) = true := by
  induction n with
  | zero => intro x pb pc; rfl
  | succ n ih =>
      intro x pb pc
      show (decide (pb = pb) && decide (pc = pc) &&
        fibChainOk ((pb, pc, pb + pc) :: (fibLoop n (pc, pb + pc)).1)) = true
      simp [ih pb pc (pb + pc)]

/-- The final `c` value of the synthesis loop, started from two consecutive
terms of the recurrence, is the term `n` steps further. -/
lemma fibLoop_final {F : Type} [CommRing F] (a b : F) (n : Nat) :
    ∀ k : Nat, (fibLoop n (fibSeq a b (k + 1), fibSeq a b (k + 2))).2 =
      fibSeq a b (k + 2 + n) := by
  induction n with
  | zero => intro k; rfl
  | succ n ih =>
      intro k
      show (fibLoop n (fibSeq a b (k + 2), fibSeq a b (k + 1) + fibSeq a b (k + 2))).2 = _
      have hstep : fibSeq a b (k + 1) + fibSeq a b (k + 2) = fibSeq a b ((k + 1) + 2) := rfl
      rw [hstep]
      have harith : (k + 1) + 2 + n = k + 2 + (n + 1) := by omega
      rw [← harith]
      exact ih (k + 1)

/-- The value `expose_public` binds to instance row 2 is `f(9)`. -/
lemma fibSynth_final {F : Type} [CommRing F] (a b : F) :
    (fibSynth a b).2 = fibSeq a b 9 := by
  show (fibLoop 7 (fibSeq a b 1, fibSeq a b 2)).2 = fibSeq a b 9
  exact fibLoop_final a b 7 0

/-- Closed form of the ninth term of the recurrence. -/
lemma fibSeq_nine {F : Type} [CommRing F] (a b : F) :
    fibSeq a b 9 = 21 * a + 34 * b := by
  simp only [fibSeq]
  ring

/-- The "add" gate always vanishes on the synthesized witness. -/
lemma fibGatesOk_true {F : Type} [CommRing F] [DecidableEq F] (a b : F) :
    fibGatesOk a b = true := by
  simp only [fibGatesOk, List.all_eq_true, decide_eq_true_eq]
  intro r hr
  have hsum : r.2.2 = r.1 + r.2.1 := by
    simp only [fibSynth, List.mem_cons] at hr
    rcases hr with h | h
    · subst h; rfl
    · exact fibLoop_rows 7 b (a + b) r h
  simp [fibGate, Expression.eval, fibRowAdv, hsum]

/-- The copy constraints of the chained regions always hold. -/
lemma fibChainOk_true {F : Type} [CommRing F] [DecidableEq F] (a b : F) :
    fibChainOk (fibSynth a b).1 = true := by
  show fibChainOk ((a, b, a + b) :: (fibLoop 7 (b, a + b)).1) = true
  exact fibChainOk_loop 7 a b (a + b)

/-- The first-row instance copies always hold. -/
lemma fibInstOk_true {F : Type} [CommRing F] [DecidableEq F] (a b : F) :
    fibInstOk a b = true := by
  simp [fibInstOk, fibSynth]

/-- C1: for the Fibonacci chip with seed (a, b) given at instance rows 0 and 1,
the synthesized circuit satisfies the checker iff the public output (instance
row 2) equals the corresponding term f(9) of the recurrence f(0) = a, f(1) = b,
f(i) = f(i-1) + f(i-2); for seed (1, 1) the output 55 satisfies, and output
55 + 1 fails, the failing constraint being exactly the equality binding
between the final c cell and the instance cell (the gates still pass). -/
theorem fib_check_correct {F : Type} [Field F] [DecidableEq F] (a b out : F) :
    (fibCheck a b out = true ↔ out = fibSeq a b 9) ∧
    fibCheck (1 : F) 1 55 = true ∧
    fibCheck (1 : F) 1 (55 + 1) = false ∧
    fibGatesOk (1 : F) 1 = true ∧
    fibChainOk (fibSynth (1 : F) 1).1 = true ∧
    fibBindingOk (1 : F) 1 (55 + 1) = false := by
  have hiff : ∀ x y z : F, (fibCheck x y z = true ↔ z = fibSeq x y 9) := by
    intro x y z
    simp only [fibCheck, fibGatesOk_true, fibChainOk_true, fibInstOk_true,
      Bool.true_and, Bool.and_eq_true, and_self, true_and, fibBindingOk,
      decide_eq_true_eq, fibSynth_final]
    exact eq_comm
  have h55 : fibSeq (1 : F) 1 9 = 55 := by rw [fibSeq_nine]; norm_num
  refine ⟨hiff a b out, ?_, ?_, fibGatesOk_true 1 1, fibChainOk_true 1 1, ?_⟩
  · rw [hiff, h55]
  · rw [Bool.eq_false_iff, Ne, hiff, h55]
    intro h
    have : (1 : F) = 0 := by linear_combination h
    exact one_ne_zero this
  · rw [Bool.eq_false_iff, Ne, fibBindingOk, decide_eq_true_eq, fibSynth_final, h55]
    intro h
    have : (1 : F) = 0 := by linear_combination - h
    exact one_ne_zero this

/-- The kinds of region `MyCircuit::synthesize` assigns. -/
inductive RegionKind where
  | firstRow
  | nextRow
deriving DecidableEq

/-- The sequence of regions assigned by `MyCircuit::synthesize`: one
"first row" region, then one "next row" region per iteration of
`for _i in 3..10`. -/
def fibRegions : List RegionKind :=
  RegionKind.firstRow :: ((List.range' 3 7).map fun _ => RegionKind.nextRow)

/-- C10: the Fibonacci circuit's step count is fixed: synthesize assigns one
first-row region followed by exactly seven next-row regions, and the cell
bound to instance row 2 always holds 21·a + 34·b = f(9). -/
theorem fib_synth_shape {F : Type} [CommRing F] (a b : F) :
    fibRegions = RegionKind.firstRow :: List.replicate 7 RegionKind.nextRow ∧
    (fibSynth a b).1.length = 8 ∧
    (fibSynth a b).2 = 21 * a + 34 * b ∧
    (fibSynth a b).2 = fibSeq a b 9 := by
  refine ⟨by decide, rfl, ?_, fibSynth_final a b⟩
  rw [fibSynth_final, fibSeq_nine]

/-! ## Range check, direct polynomial (range_check/example1.rs)

One advice column `value = 0`, one selector `q_range_check = 0`. -/

/-- The `range_check` closure of `RangeCheckConfig::configure`: the fold
`(1..RANGE).fold(value, |expr, i| expr * (Constant(i) - value))`.  Note the
fold is seeded with `value` itself, so the built expression is
`value * (1 - value) * ... * (RANGE-1 - value)`. -/
def rangeCheckExprAst {F : Type} [CommRing F] (range : Nat) (value : Expression F) :
    Expression F :=
  (List.range' 1 (range - 1)).foldl
    (fun expr (i : Nat) => .mul expr (.sub (.constant (i : F)) value)) value

/-- The "range check" gate: `Constraints::with_selector(q, ...)` multiplies
the single constraint by the selector query `q`. -/
def rangeGate {F : Type} [CommRing F] (range : Nat) : Expression F :=
  .mul (.selector 0) (rangeCheckExprAst range (.advice 0 0))

/-- Checker for the example1 circuit: `assign` enables `q_range_check` at the
single region row and assigns `value` there, so the gate must vanish at that
row under selector value 1. -/
def ex1Check {F : Type} [CommRing F] [DecidableEq F] (range : Nat) (v : F) : Bool :=
  decide ((rangeGate range).eval (fun _ => 1) (fun _ _ => v) = 0)

/-- Evaluation of the range-check fold: the result is the evaluation of the
seed times the product of the evaluated factors. -/
lemma rangeFold_eval {F : Type} [CommRing F] (sv : Nat → F) (av : Nat → Int → F)
    (value : Expression F) :
    ∀ (l : List Nat) (e : Expression F),
      (l.foldl (fun expr (i : Nat) => .mul expr (.sub (.constant (i : F)) value)) e).eval sv av =
        e.eval sv av * (l.map fun i : Nat => (i : F) - value.eval sv av).prod := by
  intro l
  induction l with
  | nil => intro e; simp
  | cons i l ih =>
      intro e
      simp only [List.foldl_cons, List.map_cons, List.prod_cons]
      rw [ih]
      simp only [Expression.eval]
      ring

/-- The evaluated range-check polynomial vanishes exactly on the images of
the integers `0, ..., R-1`. -/
lemma rangeVal_eq_zero_iff {F : Type} [Field F] (R : Nat) (hR : 1 ≤ R) (v : F) :
    (v * ((List.range' 1 (R - 1)).map fun i : Nat => (i : F) - v).prod = 0) ↔
      ∃ i : Nat, i < R ∧ v = (i : F) := by
  rw [mul_eq_zero, List.prod_eq_zero_iff]
  constructor
  · rintro (h0 | hmem)
    · exact ⟨0, hR, by simpa using h0⟩
    · rcases List.mem_map.mp hmem with ⟨i, hi, hzero⟩
      rcases List.mem_range'_1.mp hi with ⟨hi1, hi2⟩
      exact ⟨i, by omega, (sub_eq_zero.mp hzero).symm⟩
  · rintro ⟨i, hiR, rfl⟩
    rcases Nat.eq_zero_or_pos i with h0 | hpos
    · subst h0; left; simp
    · right
      refine List.mem_map.mpr ⟨i, List.mem_range'_1.mpr ⟨hpos, by omega⟩, sub_self _⟩

/-- The example1 checker passes exactly on field embeddings of `0..R-1`. -/
lemma ex1Check_iff {F : Type} [Field F] [DecidableEq F] (R : Nat) (hR : 1 ≤ R) (v : F) :
    ex1Check R v = true ↔ ∃ i : Nat, i < R ∧ v = (i : F) := by
  rw [ex1Check, decide_eq_true_eq, rangeGate]
  show (1 * (rangeCheckExprAst R (.advice 0 0)).eval (fun _ => 1) (fun _ _ => v) = 0) ↔ _
  rw [rangeCheckExprAst, rangeFold_eval, one_mul]
  exact rangeVal_eq_zero_iff R hR v

/-- C4: with the direct range-check selector enabled at the value's row, the
circuit satisfies the checker iff the assigned value is the field embedding
of an integer in 0..RANGE-1; for RANGE = 8 over a prime field, the embedding
of any integer n with 8 ≤ n below the modulus fails the check. -/
theorem range1_check_correct {F : Type} [Field F] [DecidableEq F] (R : Nat) (hR : 1 ≤ R) :
    (∀ v : F, ex1Check R v = true ↔ ∃ i : Nat, i < R ∧ v = (i : F)) ∧
    (∀ p : Nat, p.Prime → ∀ n : Nat, 8 ≤ n → n < p →
      ex1Check (F := ZMod p) 8 ((n : ZMod p)) = false) := by
  refine ⟨fun v => ex1Check_iff R hR v, ?_⟩
  intro p hp n h8 hnp
  haveI : Fact p.Prime := ⟨hp⟩
  rw [Bool.eq_false_iff, Ne, ex1Check_iff 8 (by norm_num)]
  rintro ⟨i, hi8, hcast⟩
  have : n % p = i % p := (ZMod.natCast_eq_natCast_iff' n i p).mp hcast
  rw [Nat.mod_eq_of_lt hnp, Nat.mod_eq_of_lt (by omega)] at this
  omega

/-- The gate expression as the spec's formula states it: the selector times
the bare product `Π_{i=1}^{RANGE-1} (i - value)` with no further factor
(the fold seeded with the constant 1 instead of `value`). -/
def specRangeGate {F : Type} [CommRing F] (range : Nat) : Expression F :=
  .mul (.selector 0)
    ((List.range' 1 (range - 1)).foldl
      (fun expr (i : Nat) => .mul expr (.sub (.constant (i : F)) (.advice 0 0)))
      (.constant 1))

/-- C3 counterexample: at RANGE = 8 with the selector enabled and the
assigned value 0, the configured gate evaluates to 0 while the claimed bare
product evaluates to 7! ≠ 0; the configured constraint expression therefore
is not the selector times the bare product. -/
theorem range1_gate_claim_false :
    (rangeGate (F := ZMod 257) 8).eval (fun _ => 1) (fun _ _ => 0) = 0 ∧
    (specRangeGate (F := ZMod 257) 8).eval (fun _ => 1) (fun _ _ => 0) ≠ 0 := by
  exact ⟨by decide, by decide⟩

/-- C3 amended: the direct range-check gate's constraint expression is the
selector multiplied by the assigned value and by the product of (i - value)
for i from 1 to RANGE-1 — the fold is seeded with `value`, which contributes
one additional factor beyond the product. -/
theorem range1_gate_amended {F : Type} [CommRing F] (range : Nat)
    (sv : Nat → F) (av : Nat → Int → F) :
    (rangeGate range).eval sv av =
      sv 0 * (av 0 0 *
        ((List.range' 1 (range - 1)).map fun i : Nat => (i : F) - av 0 0).prod) := by
  show (sv 0 * (rangeCheckExprAst range (.advice 0 0)).eval sv av) = _
  rw [rangeCheckExprAst, rangeFold_eval]
  rfl

/-! ## Range check with lookup (range_check/example2.rs)

Advice column `value = 0`; selectors `q_range_check = 0`, `q_lookup = 1`.
The circuit assigns two region rows: "Assign for simple" (with
`q_range_check` enabled) holding `value`, then "Assign for lookup" (with
`q_lookup` enabled) holding `lookup_value`. -/

/-- Example2's "range check" gate, identical in shape to example1's. -/
def ex2RangeGate {F : Type} [CommRing F] (range : Nat) : Expression F :=
  .mul (.selector 0) (rangeCheckExprAst range (.advice 0 0))

/-- The lookup input expression registered by `meta.lookup`:
`q_lookup * value`. -/
def ex2LookupInput {F : Type} : Expression F :=
  .mul (.selector 1) (.advice 0 0)

/-- Modelled from the spec: the table module (`table.rs` /
`RangeTableConfig`) is not among the given sources; per the spec the lookup
table is a fixed column pre-populated with the sequence `0..LOOKUP_RANGE`,
loaded once before the gadget assigns. -/
def tableValues (F : Type) [CommRing F] (n : Nat) : List F :=
  (List.range n).map fun i : Nat => (i : F)

/-- Selector valuation at the "Assign for simple" row: only `q_range_check`
is enabled there. -/
def ex2SimpleSel {F : Type} [CommRing F] : Nat → F := fun s => if s = 0 then 1 else 0

/-- Selector valuation at the "Assign for lookup" row: only `q_lookup` is
enabled there. -/
def ex2LookupSel {F : Type} [CommRing F] : Nat → F := fun s => if s = 1 then 1 else 0

/-- Gate check for example2: the "range check" gate must vanish at both
assigned rows (its selector is enabled only at the simple row). -/
def ex2GatesOk {F : Type} [CommRing F] [DecidableEq F] (range : Nat) (v lv : F) : Bool :=
  decide ((ex2RangeGate range).eval ex2SimpleSel (fun _ _ => v) = 0) &&
    decide ((ex2RangeGate range).eval ex2LookupSel (fun _ _ => lv) = 0)

/-- Lookup check for example2: at each assigned row the concrete value of
`q_lookup * value` must appear in the table column. -/
def ex2LookupOk {F : Type} [CommRing F] [DecidableEq F] (lookupRange : Nat)
    (v lv : F) : Bool :=
  decide (ex2LookupInput.eval ex2SimpleSel (fun _ _ => v) ∈ tableValues F lookupRange) &&
    decide (ex2LookupInput.eval ex2LookupSel (fun _ _ => lv) ∈ tableValues F lookupRange)

/-- Full checker for the example2 circuit on the witness synthesized from
`(value, lookup_value)`. -/
def ex2Check {F : Type} [CommRing F] [DecidableEq F] (range lookupRange : Nat)
    (v lv : F) : Bool :=
  ex2GatesOk range v lv && ex2LookupOk lookupRange v lv

/-- C5: in the mixed range-check circuit with RANGE = 8, LOOKUP_RANGE = 256,
every pair (i, j) with i in 0..7 and j in 0..255 satisfies the checker; and
for any lookup value outside the table's contents the lookup check is the
only one that fails — the direct range-check gate, whose selector is not
enabled at the lookup row, still passes. -/
theorem range2_check_correct {F : Type} [Field F] [DecidableEq F] :
    (∀ i j : Nat, i < 8 → j < 256 → ex2Check 8 256 ((i : F)) ((j : F)) = true) ∧
    (∀ (i : Nat) (lv : F), i < 8 → lv ∉ tableValues F 256 →
      ex2LookupOk 256 ((i : F)) lv = false ∧ ex2GatesOk 8 ((i : F)) lv = true) := by
  have hgates : ∀ (i : Nat) (lv : F), i < 8 → ex2GatesOk 8 ((i : F)) lv = true := by
    intro i lv hi
    have h1 : (ex2RangeGate (F := F) 8).eval ex2SimpleSel (fun _ _ => (i : F)) = 0 := by
      show (ex2SimpleSel 0 * (rangeCheckExprAst 8 (.advice 0 0)).eval ex2SimpleSel
        (fun _ _ => (i : F))) = 0
      rw [rangeCheckExprAst, rangeFold_eval]
      have : ((i : F) * ((List.range' 1 (8 - 1)).map
          fun m : Nat => (m : F) - (i : F)).prod) = 0 :=
        (rangeVal_eq_zero_iff 8 (by norm_num) ((i : F))).mpr ⟨i, hi, rfl⟩
      calc ex2SimpleSel 0 * ((Expression.advice 0 0).eval ex2SimpleSel
            (fun _ _ => (i : F)) * ((List.range' 1 (8 - 1)).map
            fun m : Nat => (m : F) - (Expression.advice 0 0).eval ex2SimpleSel
              (fun _ _ => (i : F))).prod)
          = 1 * ((i : F) * ((List.range' 1 (8 - 1)).map
            fun m : Nat => (m : F) - (i : F)).prod) := rfl
        _ = 0 := by rw [this, mul_zero]
    have h2 : (ex2RangeGate (F := F) 8).eval ex2LookupSel (fun _ _ => lv) = 0 := by
      show (ex2LookupSel 0 *
        (rangeCheckExprAst 8 (.advice 0 0)).eval ex2LookupSel (fun _ _ => lv)) = 0
      have : (ex2LookupSel (F := F)) 0 = 0 := rfl
      rw [this, zero_mul]
    simp [ex2GatesOk, h1, h2]
  have hzero_mem : (0 : F) ∈ tableValues F 256 :=
    List.mem_map.mpr ⟨0, List.mem_range.mpr (by norm_num), Nat.cast_zero⟩
  constructor
  · intro i j hi hj
    have hlook : ex2LookupOk 256 ((i : F)) ((j : F)) = true := by
      have hsimple : ex2LookupInput.eval ex2SimpleSel (fun _ _ => (i : F)) = (0 : F) := by
        show (ex2SimpleSel 1 * (i : F)) = 0
        have : (ex2SimpleSel (F := F)) 1 = 0 := rfl
        rw [this, zero_mul]
      have hlrow : ex2LookupInput.eval ex2LookupSel (fun _ _ => (j : F)) = (j : F) := by
        show (ex2LookupSel 1 * (j : F)) = (j : F)
        have : (ex2LookupSel (F := F)) 1 = 1 := rfl
        rw [this, one_mul]
      have hjmem : ((j : F)) ∈ tableValues F 256 :=
        List.mem_map.mpr ⟨j, List.mem_range.mpr hj, rfl⟩
      simp [ex2LookupOk, hsimple, hlrow, hzero_mem, hjmem]
    simp [ex2Check, hgates i ((j : F)) hi, hlook]
  · intro i lv hi hnot
    refine ⟨?_, hgates i lv hi⟩
    have hlrow : ex2LookupInput.eval ex2LookupSel (fun _ _ => lv) = lv := by
      show (ex2LookupSel 1 * lv) = lv
      have : (ex2LookupSel (F := F)) 1 = 1 := rfl
      rw [this, one_mul]
    simp [ex2LookupOk, hlrow, hnot]

/-! ## Zero-test gadget (is_zero/is_zero_gadget.rs) -/

/-- The `is_zero_expr` built inside `IsZeroChip::configure`:
`Constant(1) - value * value_inv`. -/
def isZeroExprAst {F : Type} [CommRing F] (value inv : Expression F) : Expression F :=
  .sub (.constant 1) (.mul value inv)

/-- The "is zero" gate of `IsZeroChip::configure`:
`q_enable * value * is_zero_expr`, with `value_inv` queried at the current
row of the given advice column. -/
def isZeroGateAst {F : Type} [CommRing F] (q value : Expression F) (invCol : Nat) :
    Expression F :=
  .mul (.mul q value) (isZeroExprAst value (.advice invCol 0))

/-- The "is zero" gate instantiated the generic way (value in advice column
0, `value_inv` in advice column 1), evaluated at one row with selector value
`q`, value `v` and witnessed inverse `inv`. -/
def isZeroGateEval {F : Type} [CommRing F] (q v inv : F) : F :=
  (isZeroGateAst (.selector 0) (.advice 0 0) 1).eval (fun _ => q)
    (fun c _ => if c = 0 then v else inv)

/-- C2: for the is-zero gate `q_enable * v * (1 - v*inv)` at an enabled row:
if v ≠ 0 the gate vanishes exactly when `is_zero_expr = 1 - v*inv` is 0,
which forces inv to be the multiplicative inverse of v; and for v = 0 the
gate vanishes for every choice of inv. -/
theorem is_zero_gate_sound {F : Type} [Field F] (v inv : F) :
    (v ≠ 0 → (isZeroGateEval 1 v inv = 0 ↔ (1 - v * inv = 0 ∧ inv = v⁻¹))) ∧
    (v = 0 → isZeroGateEval 1 v inv = 0) := by
  have heval : isZeroGateEval 1 v inv = 1 * v * (1 - v * inv) := rfl
  constructor
  · intro hv
    rw [heval, one_mul, mul_eq_zero]
    constructor
    · rintro (h | h)
      · exact absurd h hv
      · have hmul : v * inv = 1 := by linear_combination - h
        exact ⟨h, eq_inv_of_mul_eq_one_right hmul⟩
    · rintro ⟨h, _⟩
      exact Or.inr h
  · intro hv
    rw [heval, hv]
    ring

/-- `IsZeroChip::assign`: the witnessed `value_inv` is
`value.invert().unwrap_or(0)`, i.e. the inverse of `value` when it is
nonzero and 0 otherwise. -/
def assignedInv {F : Type} [Field F] [DecidableEq F] (v : F) : F :=
  if v = 0 then 0 else v⁻¹

/-- Concrete value of `is_zero_expr` at a row holding value `v` and
witnessed inverse `inv`. -/
def isZeroExprVal {F : Type} [CommRing F] (v inv : F) : F :=
  (isZeroExprAst (.advice 0 0) (.advice 1 0)).eval (fun _ => 0)
    (fun c _ => if c = 0 then v else inv)

/-- C7: with the witness assigned by `IsZeroChip::assign` (inverse-or-zero),
`is_zero_expr = 1 - v*inv` evaluates to 1 exactly when v = 0 and to 0
otherwise. -/
theorem is_zero_assign_expr {F : Type} [Field F] [DecidableEq F] (v : F) :
    isZeroExprVal v (assignedInv v) = if v = 0 then 1 else 0 := by
  have heval : isZeroExprVal v (assignedInv v) = 1 - v * assignedInv v := rfl
  rw [heval, assignedInv]
  by_cases hv : v = 0
  · simp [hv]
  · simp [hv, mul_inv_cancel₀ hv]

/-! ## Composed zero-test circuit (is_zero/is_zero.rs)

Columns: `a = 0`, `b = 1`, `c = 2`, `output = 3`, `is_zero_advice_column = 4`;
one selector (index 0). -/

/-- The value expression handed to `IsZeroChip::configure` by
`ComposeChip::configure`: `a - b` at the current row. -/
def composeValueExpr {F : Type} : Expression F :=
  .sub (.advice 0 0) (.advice 1 0)

/-- The "is zero" gate as instantiated by `ComposeChip::configure`. -/
def composeIsZeroGate {F : Type} [CommRing F] : Expression F :=
  isZeroGateAst (.selector 0) composeValueExpr 4

/-- `a_equals_b.expr()`: the `is_zero_expr` of the composed gadget. -/
def composeIsZeroExpr {F : Type} [CommRing F] : Expression F :=
  isZeroExprAst composeValueExpr (.advice 4 0)

/-- First constraint of the compose gate:
`s * a_equals_b.expr() * (output - c)`. -/
def composeGate1 {F : Type} [CommRing F] : Expression F :=
  .mul (.mul (.selector 0) composeIsZeroExpr) (.sub (.advice 3 0) (.advice 2 0))

/-- Second constraint of the compose gate:
`s * (1 - a_equals_b.expr()) * (output - (a - b))`. -/
def composeGate2 {F : Type} [CommRing F] : Expression F :=
  .mul (.mul (.selector 0) (.sub (.constant 1) composeIsZeroExpr))
    (.sub (.advice 3 0) (.sub (.advice 0 0) (.advice 1 0)))

/-- `ComposeChip::assign`: assigns a, b, c, lets the is-zero chip witness
the inverse of `a - b`, and assigns `output = if a == b { c } else { a - b }`.
Returns the pair (witnessed inverse, output value). -/
def composeAssign {F : Type} [Field F] [DecidableEq F] (a b c : F) : F × F :=
  (assignedInv (a - b), if a = b then c else a - b)

/-- Advice valuation of the single compose region row. -/
def composeAdv {F : Type} (a b c out inv : F) : Nat → Int → F := fun col _ =>
  if col = 0 then a else if col = 1 then b else if col = 2 then c
  else if col = 3 then out else inv

/-- Gate check of the compose circuit on the witness assigned from
`(a, b, c)`: both compose-gate constraints and the is-zero gate must vanish
at the enabled row. -/
def composeGatesOk {F : Type} [Field F] [DecidableEq F] (a b c : F) : Bool :=
  let w := composeAssign a b c
  decide (composeGate1.eval (fun _ => 1) (composeAdv a b c w.2 w.1) = 0) &&
    decide (composeGate2.eval (fun _ => 1) (composeAdv a b c w.2 w.1) = 0) &&
    decide (composeIsZeroGate.eval (fun _ => 1) (composeAdv a b c w.2 w.1) = 0)

/-- C8: for every input triple (a, b, c) the composed gadget's output cell
holds c when a = b and a - b otherwise, the resulting witness satisfies both
compose-gate constraints (and the is-zero gate); in particular a = 3, b = 2,
c = 3 gives output 1. -/
theorem compose_correct {F : Type} [Field F] [DecidableEq F] (a b c : F) :
    composeGatesOk a b c = true ∧
    (composeAssign a b c).2 = (if a = b then c else a - b) ∧
    (composeAssign (3 : F) 2 3).2 = 1 := by
  have hout : ∀ x y z : F, (composeAssign x y z).2 = (if x = y then z else x - y) :=
    fun x y z => rfl
  refine ⟨?_, hout a b c, ?_⟩
  · have h1 : composeGate1.eval (fun _ => 1)
        (composeAdv a b c (composeAssign a b c).2 (composeAssign a b c).1) =
        (1 * (1 - (a - b) * assignedInv (a - b))) * ((composeAssign a b c).2 - c) := rfl
    have h2 : composeGate2.eval (fun _ => 1)
        (composeAdv a b c (composeAssign a b c).2 (composeAssign a b c).1) =
        (1 * (1 - (1 - (a - b) * assignedInv (a - b)))) *
          ((composeAssign a b c).2 - (a - b)) := rfl
    have h3 : composeIsZeroGate.eval (fun _ => 1)
        (composeAdv a b c (composeAssign a b c).2 (composeAssign a b c).1) =
        (1 * (a - b)) * (1 - (a - b) * assignedInv (a - b)) := rfl
    by_cases hab : a = b
    · have hz : a - b = 0 := by rw [hab, sub_self]
      have hinv : assignedInv (a - b) = 0 := by rw [hz, assignedInv, if_pos rfl]
      have ho : (composeAssign a b c).2 = c := by rw [hout, if_pos hab]
      simp only [composeGatesOk, Bool.and_eq_true, decide_eq_true_eq]
      rw [h1, h2, h3, hinv, ho, hz]
      norm_num
    · have hz : a - b ≠ 0 := sub_ne_zero.mpr hab
      have hinv : assignedInv (a - b) = (a - b)⁻¹ := by rw [assignedInv, if_neg hz]
      have hcancel : (a - b) * (a - b)⁻¹ = 1 := mul_inv_cancel₀ hz
      have ho : (composeAssign a b c).2 = a - b := by rw [hout, if_neg hab]
      simp only [composeGatesOk, Bool.and_eq_true, decide_eq_true_eq]
      rw [h1, h2, h3, hinv, hcancel, ho]
      norm_num
  · rw [hout]
    have h32 : (3 : F) ≠ 2 := by
      intro h
      have : (1 : F) = 0 := by linear_combination h
      exact one_ne_zero this
    rw [if_neg h32]
    norm_num

/-! ## Multiplication chain circuit (numeric/numeric_instructions.rs)

Columns: `advice[0] = 0`, `advice[1] = 1`; one selector (index 0).  Each
`mul` region copies the two operands into `advice[0]`, `advice[1]` at its
first row, enables the selector there and assigns the product into
`advice[0]` of the next row. -/

/-- The "mul" gate of `FieldChip::configure`:
`selector * (lhs * rhs - out)` with `lhs = advice[0]@cur`,
`rhs = advice[1]@cur`, `out = advice[0]@next`. -/
def mulGate {F : Type} [CommRing F] : Expression F :=
  .mul (.selector 0) (.sub (.mul (.advice 0 0) (.advice 1 0)) (.advice 0 1))

/-- Advice valuation over one `mul` region holding `(lhs, rhs, out)` (the
product cell sits in `advice[0]` at rotation 1). -/
def mulRowAdv {F : Type} [CommRing F] (r : F × F × F) : Nat → Int → F := fun col rot =>
  if col = 0 ∧ rot = 0 then r.1
  else if col = 1 ∧ rot = 0 then r.2.1
  else if col = 0 ∧ rot = 1 then r.2.2
  else 0

/-- `MyCircuit::synthesize` of the numeric circuit: loads a, b privately and
the constant k, then chains `ab = mul(a, b)`, `ab_sq = mul(ab, ab)`,
`c = mul(constant, ab_sq)`; each `mul` region's witness is
`(lhs, rhs, lhs*rhs)`.  Returns the mul-region rows and the final value `c`,
which `expose_public` binds to instance row 0. -/
def numSynth {F : Type} [CommRing F] (k a b : F) : List (F × F × F) × F :=
  let ab := a * b
  let absq := ab * ab
  let c := k * absq
  ([(a, b, ab), (ab, ab, absq), (k, absq, c)], c)

/-- Gate check: the "mul" gate must vanish at every mul region (the selector
is enabled at offset 0 of each). -/
def numGatesOk {F : Type} [CommRing F] [DecidableEq F] (k a b : F) : Bool :=
  (numSynth k a b).1.all fun r => decide (mulGate.eval (fun _ => 1) (mulRowAdv r) = 0)

/-- Terminal binding check: `expose_public` (`constrain_instance`) forces the
final cell to equal instance row 0. -/
def numBindingOk {F : Type} [CommRing F] [DecidableEq F] (k a b inst : F) : Bool :=
  decide ((numSynth k a b).2 = inst)

/-- Full checker for the numeric circuit on the witness synthesized from
constant k and private inputs (a, b), with public input `inst` at row 0. -/
def numCheck {F : Type} [CommRing F] [DecidableEq F] (k a b inst : F) : Bool :=
  numGatesOk k a b && numBindingOk k a b inst

/-- C6: the cell bound to instance row 0 holds k·a²·b², and the circuit
satisfies the checker iff the public input at row 0 equals that value; for
k = 7, a = 2, b = 3 the output 252 satisfies and 252 + 1 fails. -/
theorem num_check_correct {F : Type} [Field F] [DecidableEq F] (k a b inst : F) :
    (numSynth k a b).2 = k * a ^ 2 * b ^ 2 ∧
    (numCheck k a b inst = true ↔ inst = k * a ^ 2 * b ^ 2) ∧
    numCheck (7 : F) 2 3 252 = true ∧
    numCheck (7 : F) 2 3 (252 + 1) = false := by
  have hfinal : ∀ x y z : F, (numSynth x y z).2 = x * y ^ 2 * z ^ 2 := by
    intro x y z
    show x * ((y * z) * (y * z)) = x * y ^ 2 * z ^ 2
    ring
  have hgates : ∀ x y z : F, numGatesOk x y z = true := by
    intro x y z
    simp only [numGatesOk, numSynth, List.all_cons, List.all_nil, Bool.and_eq_true,
      decide_eq_true_eq]
    refine ⟨?_, ?_, ?_, trivial⟩ <;>
      · show (1 * (_ * _ - _) : F) = 0
        simp [Expression.eval, mulRowAdv]
  have hiff : ∀ x y z w : F, (numCheck x y z w = true ↔ w = x * y ^ 2 * z ^ 2) := by
    intro x y z w
    simp only [numCheck, hgates, Bool.true_and, numBindingOk, decide_eq_true_eq, hfinal]
    exact eq_comm
  refine ⟨hfinal k a b, hiff k a b inst, ?_, ?_⟩
  · rw [hiff]
    norm_num
  · rw [Bool.eq_false_iff, Ne, hiff]
    intro h
    have : (1 : F) = 0 := by
      have h7 : (7 : F) * 2 ^ 2 * 3 ^ 2 = 252 := by norm_num
      rw [h7] at h
      linear_combination h
    exact one_ne_zero this

/-! ## Selector gating across all registered gates (every gadget) -/

/-- Every gate constraint registered by the gadgets of the repository,
paired with the index of its controlling selector: the Fibonacci "add"
gate, the composed circuit's "is zero" gate and its two compose-gate
constraints, the numeric "mul" gate, and the two "range check" gates
(parameterized by their compile-time bounds). -/
def allGateConstraints {F : Type} [CommRing F] (R1 R2 : Nat) :
    List (Nat × Expression F) :=
  [(0, fibGate), (0, composeIsZeroGate), (0, composeGate1), (0, composeGate2),
    (0, mulGate), (0, rangeGate R1), (0, ex2RangeGate R2)]

/-- C9: every registered gate constraint has its controlling selector as a
multiplicative factor, so wherever the selector's value is 0 the constraint
evaluates to the additive identity regardless of the advice values: disabled
rows can never fail a gate. -/
theorem gates_selector_gated {F : Type} [CommRing F] (R1 R2 : Nat) (s : Nat)
    (e : Expression F) (hmem : (s, e) ∈ allGateConstraints R1 R2)
    (sv : Nat → F) (av : Nat → Int → F) (hs : sv s = 0) :
    e.eval sv av = 0 := by
  simp only [allGateConstraints, List.mem_cons, List.not_mem_nil, or_false,
    Prod.mk.injEq] at hmem
  rcases hmem with ⟨rfl, rfl⟩ | ⟨rfl, rfl⟩ | ⟨rfl, rfl⟩ | ⟨rfl, rfl⟩ | ⟨rfl, rfl⟩ |
    ⟨rfl, rfl⟩ | ⟨rfl, rfl⟩
  · simp [fibGate, Expression.eval, hs]
  · simp [composeIsZeroGate, isZeroGateAst, isZeroExprAst, composeValueExpr,
      Expression.eval, hs]
  · simp [composeGate1, composeIsZeroExpr, isZeroExprAst, composeValueExpr,
      Expression.eval, hs]
  · simp [composeGate2, composeIsZeroExpr, isZeroExprAst, composeValueExpr,
      Expression.eval, hs]
  · simp [mulGate, Expression.eval, hs]
  · simp [rangeGate, Expression.eval, hs]
  · simp [ex2RangeGate, Expression.eval, hs]

/-! ## Concrete witnesses over ZMod 257 -/

instance : Fact (Nat.Prime 257) := ⟨by norm_num⟩

/-- Witness for the direct range check at RANGE = 8 over ZMod 257: the
embedding of 5 passes and the embedding of 9 fails. -/
theorem range1_check_correct_witness :
    ex1Check (F := ZMod 257) 8 ((5 : Nat) : ZMod 257) = true ∧
    ex1Check (F := ZMod 257) 8 ((9 : Nat) : ZMod 257) = false :=
  ⟨((range1_check_correct (F := ZMod 257) 8 (by norm_num)).1 ((5 : Nat) : ZMod 257)).mpr
      ⟨5, by norm_num, rfl⟩,
    (range1_check_correct (F := ZMod 257) 8 (by norm_num)).2 257 (by norm_num) 9
      (by norm_num) (by norm_num)⟩

/-- Witness for the mixed range check over ZMod 257: the pair (3, 100)
passes, and the out-of-table value 256 fails only the lookup. -/
theorem range2_check_correct_witness :
    ex2Check (F := ZMod 257) 8 256 ((3 : Nat) : ZMod 257) ((100 : Nat) : ZMod 257) = true ∧
    (ex2LookupOk 256 ((3 : Nat) : ZMod 257) (256 : ZMod 257) = false ∧
      ex2GatesOk 8 ((3 : Nat) : ZMod 257) (256 : ZMod 257) = true) :=
  ⟨(range2_check_correct (F := ZMod 257)).1 3 100 (by norm_num) (by norm_num),
    (range2_check_correct (F := ZMod 257)).2 3 (256 : ZMod 257) (by norm_num) (by decide)⟩

/-- Witness for the is-zero gate soundness over ZMod 257: at v = 2 the
vanishing gate forces inv = 129 = 2⁻¹, and at v = 0 the gate vanishes for
the arbitrary inv = 5. -/
theorem is_zero_gate_sound_witness :
    ((1 : ZMod 257) - 2 * 129 = 0 ∧ (129 : ZMod 257) = 2⁻¹) ∧
    isZeroGateEval (1 : ZMod 257) 0 5 = 0 :=
  ⟨((is_zero_gate_sound (2 : ZMod 257) 129).1 (by decide)).mp (by decide),
    (is_zero_gate_sound (0 : ZMod 257) 5).2 rfl⟩

/-- Witness for selector gating over ZMod 257: the Fibonacci "add" gate
evaluates to 0 at a row where its selector is 0. -/
theorem gates_selector_gated_witness :
    Expression.eval (fun _ => (0 : ZMod 257)) (fun _ _ => 0) fibGate = 0 :=
  gates_selector_gated 8 8 0 fibGate (List.mem_cons_self _ _) (fun _ => 0)
    (fun _ _ => 0) rfl
